import Mathlib

/-!
Shallow embedding of the query-serving core of the Leave-Search repository
(Go). Strings are modelled as lists of characters; Go byte-oriented
operations are modelled on ASCII inputs, where bytes and characters agree.
Go `int` is modelled as `Int`; `float64` scores and `time.Time` stamps are
carried opaquely as `Int` because no core code inspects them. External
collaborators (the Redis store, the Elasticsearch backend and the standard
JSON codec) are modelled by explicit state and outcome values, as described
at each definition.
-/

namespace Leave

/-- Model of Go `strings.Contains s sub`: `sub` occurs as a contiguous
substring of `s`. -/
def goContains (s sub : List Char) : Bool :=
  decide (List.IsInfix sub s)

/-- Model of `search.Document` (backend/internal/search): identifier, title,
body content, source URL, relevance score and timestamp. Score and
timestamp are opaque carriers. -/
structure Document where
  id : List Char
  title : List Char
  content : List Char
  url : List Char
  score : Int
  timestamp : Int
  deriving DecidableEq, Repr

/-- The fixed sensitive keyword list hardcoded in `filter.Service.isBlocked`. -/
def sensitiveKeywords : List (List Char) :=
  ["成人".toList, "色情".toList, "赌博".toList, "xxx".toList, "porn".toList]

/-- The keyword half of `filter.Service.isBlocked`: the document title or
content contains one of the fixed sensitive keywords. -/
def keywordBlocked (doc : Document) : Bool :=
  sensitiveKeywords.any (fun kw => goContains doc.title kw || goContains doc.content kw)

/-- Model of `filter.Service.isBlocked`: the URL or title contains a blocked
domain substring, or the title or content contains a sensitive keyword.
The Go map over domains is an existence check, modelled as a list. -/
def isBlocked (blockedDomains : List (List Char)) (doc : Document) : Bool :=
  blockedDomains.any (fun d => goContains doc.url d || goContains doc.title d)
    || keywordBlocked doc

/-- Model of `filter.Service.Filter`: walk the results, drop blocked
documents counting them, and keep the rest in order. -/
def Filter (blockedDomains : List (List Char)) :
    List Document → List Document × Nat
  | [] => ([], 0)
  | doc :: rest =>
    let r := Filter blockedDomains rest
    if isBlocked blockedDomains doc then (r.1, r.2 + 1) else (doc :: r.1, r.2)

/-- The default blocked-domain list loaded by `filter.loadDefaultBlacklist`. -/
def defaultBlacklist : List (List Char) :=
  ["example-adult-site.com".toList, "bad-content.org".toList,
   "xxx-test.net".toList, "adult.com".toList, "porn.com".toList]

/-- Model of the ASCII whitespace set trimmed by Go `strings.TrimSpace`
(the inputs of interest are ASCII, where the Unicode and ASCII space sets
agree). -/
def isSpaceChar (c : Char) : Bool :=
  c = ' ' || c = '\t' || c = '\n' || Char.ofNat 11 = c || Char.ofNat 12 = c || c = '\r'

/-- Model of Go `strings.TrimSpace`: drop whitespace from both ends. -/
def trimSpace (s : List Char) : List Char :=
  ((s.dropWhile isSpaceChar).reverse.dropWhile isSpaceChar).reverse

/-- Model of the per-character replacement table of Go `html.EscapeString`:
amp, apostrophe (character 39), lt, gt and double quote are replaced by
their HTML entities; every other character is kept. -/
def escapeChar (c : Char) : List Char :=
  if c = '&' then "&amp;".toList
  else if c = Char.ofNat 39 then "&#39;".toList
  else if c = '<' then "&lt;".toList
  else if c = '>' then "&gt;".toList
  else if c = '"' then "&#34;".toList
  else [c]

/-- Model of Go `html.EscapeString`: replace each character by its
escape sequence. -/
def escapeString (s : List Char) : List Char :=
  s.flatMap escapeChar

/-- A character changed by `escapeChar`. -/
def escapable (c : Char) : Bool :=
  c = '&' || c = Char.ofNat 39 || c = '<' || c = '>' || c = '"'

/-- Model of `validateSearchInput` (backend/internal/api/handlers.go):
trim, reject the empty trimmed query, truncate the trimmed query to 100
characters, then HTML-escape. -/
def validateSearchInput (query : List Char) : List Char × Bool :=
  let q := trimSpace query
  if q = [] then ([], false)
  else
    let q := if 100 < q.length then q.take 100 else q
    (escapeString q, true)

/-- Decimal digit run helper for the `strconv.Atoi` model. -/
def decDigits? (s : List Char) : Option Nat :=
  if s = [] then none
  else if s.all (fun c => c.isDigit) then
    some (s.foldl (fun n c => n * 10 + (c.toNat - 48)) 0)
  else none

/-- Model of Go `strconv.Atoi`: optional sign, decimal digits, error on the
empty string, on any non-digit, and on 64-bit signed overflow. -/
def atoi (s : List Char) : Option Int :=
  let signed : Option Int :=
    match s with
    | '+' :: rest => (decDigits? rest).map (fun n => (n : Int))
    | '-' :: rest => (decDigits? rest).map (fun n => -(n : Int))
    | _ => (decDigits? s).map (fun n => (n : Int))
  match signed with
  | none => none
  | some v =>
    if v > 9223372036854775807 then none
    else if v < -9223372036854775808 then none
    else some v

/-- Model of `validatePagination` (backend/internal/api/handlers.go):
page defaults to 1 on parse error or page below 1; size defaults to 10 on
parse error or size below 1 and is capped at 50. -/
def validatePagination (pageStr sizeStr : List Char) : Int × Int :=
  let page :=
    match atoi pageStr with
    | none => 1
    | some p => if p < 1 then 1 else p
  let size :=
    match atoi sizeStr with
    | none => 10
    | some s =>
      let s := if s < 1 then 10 else s
      if s > 50 then 50 else s
  (page, size)

/-- Value of a hexadecimal digit, as in the Go `net` package helper. -/
def hexDigitVal? (c : Char) : Option Nat :=
  if '0' ≤ c ∧ c ≤ '9' then some (c.toNat - 48)
  else if 'a' ≤ c ∧ c ≤ 'f' then some (c.toNat - 87)
  else if 'A' ≤ c ∧ c ≤ 'F' then some (c.toNat - 55)
  else none

/-- Whether a character is a hexadecimal digit. -/
def isHexDigitChar (c : Char) : Bool :=
  (hexDigitVal? c).isSome

/-- Value of a run of hexadecimal digits. -/
def hexVal (digits : List Char) : Nat :=
  digits.foldl (fun n c => n * 16 + ((hexDigitVal? c).getD 0)) 0

/-- Modelled from the spec: one dotted-decimal field of Go
`net.parseIPv4` (standard library collaborator): nonempty, digits only, no
leading zero, at most 255. -/
def parseV4Field (f : List Char) : Option Nat :=
  if f = [] then none
  else if !(f.all (fun c => c.isDigit)) then none
  else if 1 < f.length ∧ f.head? = some '0' then none
  else
    let n := f.foldl (fun n c => n * 10 + (c.toNat - 48)) 0
    if n ≤ 255 then some n else none

/-- The 16-byte IPv4-in-IPv6 mapped form used by the Go `net` package to
represent IPv4 addresses. -/
def v4InV6 (a b c d : Nat) : List Nat :=
  [0, 0, 0, 0, 0, 0, 0, 0, 0, 0, 255, 255, a, b, c, d]

/-- Modelled from the spec: Go `net.parseIPv4` (standard library
collaborator): exactly four dotted-decimal fields, returned in the 16-byte
mapped form. -/
def parseV4 (s : List Char) : Option (List Nat) :=
  match s.splitOn '.' with
  | [f1, f2, f3, f4] =>
    match parseV4Field f1, parseV4Field f2, parseV4Field f3, parseV4Field f4 with
    | some a, some b, some c, some d => some (v4InV6 a b c d)
    | _, _, _, _ => none
  | _ => none

/-- Fill in the zero bytes elided by a double-colon, as at the end of Go
`net.parseIPv6`: without an ellipsis exactly 16 bytes are required; with
one, strictly fewer than 16 bytes must be present. -/
def fillV6 (acc : List Nat) (ell : Option Nat) : Option (List Nat) :=
  match ell with
  | none => if acc.length = 16 then some acc else none
  | some e =>
    if acc.length < 16 then
      some (acc.take e ++ List.replicate (16 - acc.length) 0 ++ acc.drop e)
    else none

/-- Modelled from the spec: the group-reading loop of Go `net.parseIPv6`
(standard library collaborator). Each step reads one hexadecimal group of
at most 0xFFFF, then either ends, continues after a colon, records a single
double-colon ellipsis, or hands the tail to the IPv4 parser when a dot
follows (only at byte offset 12 unless an ellipsis was seen). Fuel bounds
the recursion; each step consumes at least one character. -/
def parseV6Loop : Nat → List Char → List Nat → Option Nat → Option (List Nat)
  | 0, _, _, _ => none
  | fuel + 1, s, acc, ell =>
    if 16 ≤ acc.length then none
    else
      let digits := s.takeWhile isHexDigitChar
      let rest := s.dropWhile isHexDigitChar
      if digits = [] then none
      else if 0xFFFF < hexVal digits then none
      else
        match rest with
        | '.' :: _ =>
          if (match ell with
              | some _ => decide (acc.length + 4 ≤ 16)
              | none => decide (acc.length = 12)) then
            match parseV4 s with
            | some bytes => fillV6 (acc ++ bytes.drop 12) ell
            | none => none
          else none
        | [] => fillV6 (acc ++ [hexVal digits / 256, hexVal digits % 256]) ell
        | ':' :: ':' :: rest2 =>
          match ell with
          | some _ => none
          | none =>
            let acc2 := acc ++ [hexVal digits / 256, hexVal digits % 256]
            if rest2 = [] then fillV6 acc2 (some acc2.length)
            else parseV6Loop fuel rest2 acc2 (some acc2.length)
        | [':'] => none
        | ':' :: rest2 =>
          parseV6Loop fuel rest2 (acc ++ [hexVal digits / 256, hexVal digits % 256]) ell
        | _ => none

/-- Modelled from the spec: Go `net.parseIPv6` (standard library
collaborator): an optional leading double-colon, then the group loop. -/
def parseV6 (s : List Char) : Option (List Nat) :=
  match s with
  | ':' :: ':' :: rest =>
    if rest = [] then some (List.replicate 16 0)
    else parseV6Loop (rest.length + 1) rest [] (some 0)
  | _ => parseV6Loop (s.length + 1) s [] none

/-- Modelled from the spec: Go `net.ParseIP` (standard library
collaborator): dispatch on the first dot or colon; anything else is
unparsable. The result is always in the 16-byte form. -/
def parseIP (s : List Char) : Option (List Nat) :=
  match s.find? (fun c => c == '.' || c == ':') with
  | some '.' => parseV4 s
  | some ':' => parseV6 s
  | _ => none

/-- Model of Go `IP.To4`: the four IPv4 bytes when the address is in the
IPv4-mapped range, otherwise nothing. -/
def to4 (ip : List Nat) : Option (List Nat) :=
  match ip with
  | [0, 0, 0, 0, 0, 0, 0, 0, 0, 0, 255, 255, a, b, c, d] => some [a, b, c, d]
  | _ => none

/-- Model of Go `IP.IsLoopback`: first IPv4 byte 127, or the IPv6 loopback
address. -/
def isLoopback (ip : List Nat) : Bool :=
  match to4 ip with
  | some (a :: _) => decide (a = 127)
  | some [] => false
  | none => decide (ip = [0, 0, 0, 0, 0, 0, 0, 0, 0, 0, 0, 0, 0, 0, 0, 1])

/-- Model of `isPrivateIP` (backend/internal/ip/ip_service.go): the three
private IPv4 ranges; everything without a To4 form is not private. -/
def isPrivateIP (ip : List Nat) : Bool :=
  match to4 ip with
  | some (a :: b :: _) =>
    decide (a = 10 ∨ (a = 172 ∧ 16 ≤ b ∧ b ≤ 31) ∨ (a = 192 ∧ b = 168))
  | _ => false

/-- The static range table of `IsChinaMainland`: an IPv4 address whose
first byte is between 1 and 100 is treated as a mainland address. -/
def chinaRange (ip : List Nat) : Bool :=
  match to4 ip with
  | some (a :: _) => decide (1 ≤ a ∧ a ≤ 100)
  | _ => false

/-- Model of `ip.Service.IsChinaMainland` (backend/internal/ip): the
literal IPv6 loopback string is restricted; unparsable addresses are not;
loopback and private addresses are restricted; other addresses are
restricted exactly when the static range table matches. -/
def IsChinaMainland (s : List Char) : Bool :=
  if s = "::1".toList then true
  else
    match parseIP s with
    | none => false
    | some ip =>
      if isLoopback ip || isPrivateIP ip then true
      else chinaRange ip

/-- Model of `search.SearchResult` (backend/internal/search). -/
structure SearchResult where
  total : Int
  hits : List Document
  took : Int
  suggestions : List (List Char)
  deriving DecidableEq, Repr

/-- Model of a byte string held by the cache, quotiented by the JSON codec
(standard library collaborator): a value either unmarshals to a
`SearchResult` or fails to unmarshal. -/
inductive CacheBytes where
  | wellFormed (r : SearchResult)
  | malformed (raw : List Char)
  deriving DecidableEq, Repr

/-- Model of `json.Unmarshal` into a `SearchResult`. -/
def unmarshalResult : CacheBytes → Option SearchResult
  | .wellFormed r => some r
  | .malformed _ => none

/-- Model of `json.Marshal` of a `SearchResult`: marshalling a concrete
result always produces bytes that unmarshal back to the same value. -/
def marshalResult (r : SearchResult) : CacheBytes :=
  .wellFormed r

/-- Model of `Service.getSuggestions` (backend/internal/search): three
deterministic suffix expansions of the query. -/
def getSuggestions (query : List Char) : List (List Char) :=
  [query ++ " tutorial".toList, query ++ " example".toList, query ++ " docs".toList]

/-- Model of the cache key `fmt.Sprintf` built in `Service.Search`:
`search:` followed by the query, page and size, colon-separated. -/
def cacheKey (query : List Char) (page size : Int) : List Char :=
  "search:".toList ++ query ++ [':'] ++ (toString page).toList
    ++ [':'] ++ (toString size).toList

/-- Lookup in a key-value store modelled as an association list, newest
entry first (models a Redis GET). -/
def kvLookup {β : Type} : List (List Char × β) → List Char → Option β
  | [], _ => none
  | (k, v) :: rest, key => if k = key then some v else kvLookup rest key

/-- Model of the outcome of one Elasticsearch search call: the transport
may fail, the response may carry an error status, decoding the body may
fail, or the call succeeds with a total, hits and elapsed time. -/
inductive EsOutcome where
  | transportError (e : List Char)
  | httpError (status : List Char)
  | decodeError (e : List Char)
  | ok (total : Int) (docs : List Document) (took : Int)

/-- The backend fetch path of `Service.Search` after a cache miss:
transport and decode errors propagate as they are, an error status is
wrapped in a fixed message, and a successful response is composed with the
suggestions into a `SearchResult`. -/
def searchFetch (query : List Char) (outcome : EsOutcome) :
    Except (List Char) SearchResult :=
  match outcome with
  | .transportError e => .error e
  | .httpError status => .error ("search request failed: ".toList ++ status)
  | .decodeError e => .error e
  | .ok total docs took => .ok ⟨total, docs, took, getSuggestions query⟩

/-- The TTL, in seconds, of the asynchronous cache write in
`Service.Search` (five minutes). -/
def searchCacheTTL : Nat := 300

/-- Model of `search.Service.Search` (backend/internal/search): read the
cache under the composite key; a present value that unmarshals is returned
as is; otherwise the backend fetch path runs and, on success, an
asynchronous cache write of the marshalled result is scheduled. The model
returns the result or error, whether the backend fetch path ran, and the
scheduled cache write if any. -/
def Search (cache : List (List Char × CacheBytes)) (outcome : EsOutcome)
    (query : List Char) (page size : Int) :
    Except (List Char) SearchResult × Bool × Option (List Char × CacheBytes × Nat) :=
  let key := cacheKey query page size
  match (kvLookup cache key).bind unmarshalResult with
  | some r => (.ok r, false, none)
  | none =>
    match searchFetch query outcome with
    | .error e => (.error e, true, none)
    | .ok result => (.ok result, true, some (key, marshalResult result, searchCacheTTL))

/-- Model of `CacheService.GetOrSet` (cache service source): on a hit the
raw cached string is returned; on a miss the fetch outcome runs, an error
propagates with no write, and a success schedules an asynchronous
marshalled write and is returned. -/
def GetOrSet {α : Type} (cache : List (List Char × List Char)) (key : List Char)
    (ttl : Nat) (fetch : Except (List Char) α) (marshal : α → List Char) :
    Except (List Char) (List Char ⊕ α) × Option (List Char × List Char × Nat) :=
  match kvLookup cache key with
  | some v => (.ok (.inl v), none)
  | none =>
    match fetch with
    | .error e => (.error e, none)
    | .ok d => (.ok (.inr d), some (key, marshal d, ttl))

/-- Model of `api.SearchResponse` (backend/internal/api): the embedded
search result plus the filtering flag and notice message. -/
structure SearchResponse where
  result : SearchResult
  filtered : Bool
  message : List Char
  deriving DecidableEq, Repr

/-- The fixed, non-localized notice string set by `Handler.Search` when
results are withheld. -/
def noticeMessage : List Char :=
  "根据相关法律法规和政策，部分搜索结果未予显示。".toList

/-- Model of the response-shaping tail of `Handler.Search`
(backend/internal/api/handlers.go): when the caller is in the restricted
region and the moderation pass removed at least one document, the hits are
replaced by the kept documents and the flag and notice message are set;
otherwise the backend result passes through untouched with the zero values
of the flag and message. -/
def handlerShape (bd : List (List Char)) (isCN : Bool) (result : SearchResult) :
    SearchResponse :=
  if isCN then
    let fr := Filter bd result.hits
    if 0 < fr.2 then
      { result := { result with hits := fr.1 }, filtered := true,
        message := noticeMessage }
    else { result := result, filtered := false, message := [] }
  else { result := result, filtered := false, message := [] }

/-- A document whose title contains a sensitive keyword, used as a concrete
moderation input. -/
def pornTitledDoc : Document :=
  { id := "d1".toList, title := "porn site".toList, content := "c".toList,
    url := "http://example.com".toList, score := 1, timestamp := 0 }

/-- A document matching nothing in any blocklist, used as a concrete
moderation input. -/
def plainDoc : Document :=
  { id := "d2".toList, title := "hello".toList, content := "world".toList,
    url := "http://ok.example".toList, score := 1, timestamp := 0 }

/-- A document whose URL contains a default blocked domain, used as a
concrete moderation input. -/
def blockedUrlDoc : Document :=
  { id := "d3".toList, title := "news".toList, content := "text".toList,
    url := "http://adult.com/page".toList, score := 1, timestamp := 0 }

/-- A concrete search result for the query hello, used as a cache value. -/
def helloResult : SearchResult :=
  ⟨1, [plainDoc], 5, getSuggestions "hello".toList⟩

/-- The concrete cache key of the query hello at page 1, size 10. -/
def helloKey : List Char :=
  cacheKey "hello".toList 1 10

theorem Filter_length_add (bd : List (List Char)) (docs : List Document) :
    (Filter bd docs).1.length + (Filter bd docs).2 = docs.length := by
  induction docs with
  | nil => rfl
  | cons doc rest ih =>
    by_cases h : isBlocked bd doc = true
    · simp [Filter, h]
      omega
    · simp [Filter, h]
      omega

theorem Filter_sublist (bd : List (List Char)) (docs : List Document) :
    List.Sublist (Filter bd docs).1 docs := by
  induction docs with
  | nil => simp [Filter]
  | cons doc rest ih =>
    by_cases h : isBlocked bd doc = true
    · simp only [Filter, h, if_true]
      exact ih.cons doc
    · simp only [Filter, h, if_false]
      exact ih.cons₂ doc

theorem Filter_kept_not_blocked (bd : List (List Char)) (docs : List Document) :
    ∀ d ∈ (Filter bd docs).1, isBlocked bd d = false := by
  induction docs with
  | nil => simp [Filter]
  | cons doc rest ih =>
    by_cases h : isBlocked bd doc = true
    · simpa [Filter, h] using ih
    · intro d hd
      simp only [Filter, h, if_false] at hd
      rcases List.mem_cons.mp hd with rfl | hmem
      · simpa using h
      · exact ih d hmem

theorem Filter_all_safe (bd : List (List Char)) (docs : List Document)
    (h : ∀ d ∈ docs, isBlocked bd d = false) :
    Filter bd docs = (docs, 0) := by
  induction docs with
  | nil => rfl
  | cons doc rest ih =>
    have hdoc : isBlocked bd doc = false := h doc (List.mem_cons_self doc rest)
    have hrest : Filter bd rest = (rest, 0) :=
      ih (fun d hd => h d (List.mem_cons_of_mem doc hd))
    simp [Filter, hdoc, hrest]

/-- C1: for every blocked-domain set and every input document sequence,
`Filter` returns a pair whose kept length plus removed count equals the
input length, and whose kept sequence is a sublist (order-preserving
subsequence) of the input. -/
theorem C1_filter_partition (bd : List (List Char)) (docs : List Document) :
    (Filter bd docs).1.length + (Filter bd docs).2 = docs.length
      ∧ List.Sublist (Filter bd docs).1 docs :=
  ⟨Filter_length_add bd docs, Filter_sublist bd docs⟩

/-- C8: `Filter` is idempotent: running it again on the kept output removes
nothing and returns the kept output unchanged. -/
theorem C8_filter_idempotent (bd : List (List Char)) (docs : List Document) :
    Filter bd (Filter bd docs).1 = ((Filter bd docs).1, 0) :=
  Filter_all_safe bd (Filter bd docs).1 (Filter_kept_not_blocked bd docs)

theorem escapeString_of_no_escapable (s : List Char)
    (h : s.all (fun c => !(escapable c)) = true) : escapeString s = s := by
  induction s with
  | nil => rfl
  | cons c rest ih =>
    simp only [List.all_cons, Bool.and_eq_true] at h
    have hc : escapable c = false := by
      cases hec : escapable c
      · rfl
      · rw [hec] at h
        simp at h
    have hch : escapeChar c = [c] := by
      simp only [escapable, Bool.or_eq_false_iff, decide_eq_false_iff_not] at hc
      simp [escapeChar, hc.1.1.1.1, hc.1.1.1.2, hc.1.1.2, hc.1.2, hc.2]
    simp [escapeString, List.flatMap_cons, hch]
    simpa [escapeString] using ih h.2

set_option maxRecDepth 10000 in
/-- C3 counterexample: the raw query of 101 left-angle-bracket characters
is longer than 100 characters and trims to a non-empty string, yet
validation returns a string of length 400, because truncation to 100
characters happens before HTML escaping expands each character. -/
theorem C3_counterexample_escape_expansion :
    100 < (List.replicate 101 '<').length
      ∧ trimSpace (List.replicate 101 '<') ≠ []
      ∧ (validateSearchInput (List.replicate 101 '<')).2 = true
      ∧ (validateSearchInput (List.replicate 101 '<')).1.length = 400
      ∧ (validateSearchInput (List.replicate 101 '<')).1.length ≠ 100 := by
  refine ⟨by decide, by decide, by decide, by decide, by decide⟩

/-- C3 amended: for every raw query whose trimmed form is longer than 100
characters, validation succeeds and truncates the trimmed form to exactly
100 characters before escaping; when none of those 100 characters is
markup-significant the returned string has length exactly 100. -/
theorem C3_truncation_length (q : List Char)
    (hlong : 100 < (trimSpace q).length)
    (hplain : ((trimSpace q).take 100).all (fun c => !(escapable c)) = true) :
    (validateSearchInput q).2 = true ∧ (validateSearchInput q).1.length = 100 := by
  have hne : trimSpace q ≠ [] := by
    intro h
    rw [h] at hlong
    simp at hlong
  simp only [validateSearchInput, hne, if_false, hlong, if_true]
  refine ⟨trivial, ?_⟩
  rw [escapeString_of_no_escapable _ hplain]
  rw [List.length_take]
  omega

set_option maxRecDepth 10000 in
/-- Witness for the amended C3 theorem at a concrete 101-character query. -/
theorem C3_truncation_length_witness :
    (validateSearchInput (List.replicate 101 'a')).2 = true
      ∧ (validateSearchInput (List.replicate 101 'a')).1.length = 100 :=
  C3_truncation_length (List.replicate 101 'a') (by decide) (by decide)

/-- C6: pagination validation always returns a page of at least 1 and a
size between 1 and 50; an unparsable or non-positive page yields 1, an
unparsable or non-positive size yields 10, a size above 50 is capped at 50,
and the concrete pair abc, 1000 resolves to page 1 and size 50. -/
theorem C6_validatePagination_spec :
    (∀ pS sS : List Char, 1 ≤ (validatePagination pS sS).1
        ∧ 1 ≤ (validatePagination pS sS).2 ∧ (validatePagination pS sS).2 ≤ 50)
      ∧ (∀ pS sS : List Char, (atoi pS = none ∨ ∃ v, atoi pS = some v ∧ v < 1) →
          (validatePagination pS sS).1 = 1)
      ∧ (∀ pS sS : List Char, (atoi sS = none ∨ ∃ v, atoi sS = some v ∧ v < 1) →
          (validatePagination pS sS).2 = 10)
      ∧ (∀ (pS sS : List Char) (v : Int), atoi sS = some v → 50 < v →
          (validatePagination pS sS).2 = 50)
      ∧ validatePagination "abc".toList "1000".toList = (1, 50) := by
  refine ⟨?_, ?_, ?_, ?_, by decide⟩
  · intro pS sS
    simp only [validatePagination]
    refine ⟨?_, ?_, ?_⟩
    · cases h : atoi pS with
      | none => simp
      | some p =>
        simp only
        split <;> omega
    · cases h : atoi sS with
      | none => simp
      | some v =>
        simp only
        split <;> split <;> omega
    · cases h : atoi sS with
      | none => simp
      | some v =>
        simp only
        split <;> split <;> omega
  · intro pS sS h
    rcases h with h | ⟨v, hv, hlt⟩
    · simp [validatePagination, h]
    · simp [validatePagination, hv, hlt]
  · intro pS sS h
    rcases h with h | ⟨v, hv, hlt⟩
    · simp [validatePagination, h]
    · simp only [validatePagination, hv, if_pos hlt]
      norm_num
  · intro pS sS v hv hgt
    have hnlt : ¬(v < 1) := by omega
    simp [validatePagination, hv, hnlt, hgt]

/-- Witness for the C6 theorem at concrete pagination strings. -/
theorem C6_validatePagination_witness :
    validatePagination "abc".toList "1000".toList = (1, 50)
      ∧ (validatePagination "xyz".toList "0".toList).1 = 1
      ∧ (validatePagination "xyz".toList "0".toList).2 = 10
      ∧ (validatePagination "2".toList "51".toList).2 = 50 := by
  refine ⟨C6_validatePagination_spec.2.2.2.2, ?_, ?_, ?_⟩
  · exact C6_validatePagination_spec.2.1 _ _ (Or.inl (by decide))
  · exact C6_validatePagination_spec.2.2.1 _ _ (Or.inr ⟨0, by decide, by decide⟩)
  · exact C6_validatePagination_spec.2.2.2.1 _ _ 51 (by decide) (by decide)

/-- C4 counterexample: with an empty blocked-domain set, a document whose
title contains the fixed sensitive keyword porn is still removed, so
`Filter` is not a no-op on every sequence. -/
theorem C4_counterexample_keyword_removal :
    Filter [] [pornTitledDoc] = ([], 1)
      ∧ Filter [] [pornTitledDoc] ≠ ([pornTitledDoc], 0) := by
  refine ⟨by decide, by decide⟩

/-- C4 amended: `Filter` is a total function that never errors, and with an
empty blocked-domain set it returns any sequence unchanged with a removed
count of zero, provided no document matches the fixed hardcoded sensitive
keyword list; documents matching that list are removed even with an empty
blocked-domain set. -/
theorem C4_empty_blocklist_noop (docs : List Document)
    (h : ∀ d ∈ docs, keywordBlocked d = false) :
    Filter [] docs = (docs, 0) := by
  apply Filter_all_safe
  intro d hd
  simp [isBlocked, h d hd]

/-- Witness for the amended C4 theorem on a concrete keyword-free sequence. -/
theorem C4_empty_blocklist_noop_witness :
    Filter [] [plainDoc, blockedUrlDoc] = ([plainDoc, blockedUrlDoc], 0) :=
  C4_empty_blocklist_noop [plainDoc, blockedUrlDoc] (by decide)

/-- C7: the geo classifier is a total boolean function of the address
string; every address that parses to a loopback or private-range IP
classifies as restricted; every unparsable address classifies as not
restricted; and every parsed address that is neither loopback, private,
nor in the static range table classifies as not restricted. -/
theorem C7_IsChinaMainland_spec :
    (∀ s : List Char, IsChinaMainland s = true ∨ IsChinaMainland s = false)
      ∧ (∀ (s : List Char) (ip : List Nat), parseIP s = some ip →
          (isLoopback ip || isPrivateIP ip) = true → IsChinaMainland s = true)
      ∧ (∀ s : List Char, parseIP s = none → IsChinaMainland s = false)
      ∧ (∀ (s : List Char) (ip : List Nat), parseIP s = some ip →
          (isLoopback ip || isPrivateIP ip) = false → chinaRange ip = false →
          IsChinaMainland s = false) := by
  refine ⟨?_, ?_, ?_, ?_⟩
  · intro s
    cases h : IsChinaMainland s
    · exact Or.inr rfl
    · exact Or.inl rfl
  · intro s ip hp hlp
    by_cases hs : s = "::1".toList
    · simp [IsChinaMainland, hs]
    · simp [IsChinaMainland, hs, hp, hlp]
  · intro s hp
    have hs : s ≠ "::1".toList := by
      intro hs
      rw [hs] at hp
      have : parseIP "::1".toList
          = some [0, 0, 0, 0, 0, 0, 0, 0, 0, 0, 0, 0, 0, 0, 0, 1] := by decide
      rw [this] at hp
      exact Option.noConfusion hp
    simp [IsChinaMainland, hs, hp]
    exact hs
  · intro s ip hp hlp hcr
    have hs : s ≠ "::1".toList := by
      intro hs
      rw [hs] at hp
      have h1 : parseIP "::1".toList
          = some [0, 0, 0, 0, 0, 0, 0, 0, 0, 0, 0, 0, 0, 0, 0, 1] := by decide
      rw [h1] at hp
      have h2 : ip = [0, 0, 0, 0, 0, 0, 0, 0, 0, 0, 0, 0, 0, 0, 0, 1] :=
        (Option.some.injEq _ _ ▸ hp).symm
      rw [h2] at hlp
      simp [isLoopback, to4] at hlp
    simp [IsChinaMainland, hs, hp, hlp, hcr]
    exact hs

/-- Witness for the C7 theorem at concrete addresses: a private address is
restricted, garbage is not, and a public address outside the range table is
not. -/
theorem C7_IsChinaMainland_witness :
    IsChinaMainland "192.168.1.1".toList = true
      ∧ IsChinaMainland "garbage".toList = false
      ∧ IsChinaMainland "150.1.1.1".toList = false :=
  ⟨C7_IsChinaMainland_spec.2.1 "192.168.1.1".toList (v4InV6 192 168 1 1)
      (by decide) (by decide),
   C7_IsChinaMainland_spec.2.2.1 "garbage".toList (by decide),
   C7_IsChinaMainland_spec.2.2.2 "150.1.1.1".toList (v4InV6 150 1 1 1)
      (by decide) (by decide) (by decide)⟩

/-- C2: a cache read that finds a value unmarshalling to a result answers
the request with exactly that result, without running the backend fetch
path and without scheduling a cache write; and after a miss with a
successful backend fetch, applying the scheduled write lets an identical
request be answered from the cache alone with the same result, whatever
the backend would do the second time. -/
theorem C2_cache_hit_skips_backend :
    (∀ (cache : List (List Char × CacheBytes)) (outcome : EsOutcome)
        (q : List Char) (p sz : Int) (b : CacheBytes) (r : SearchResult),
        kvLookup cache (cacheKey q p sz) = some b → unmarshalResult b = some r →
        Search cache outcome q p sz = (.ok r, false, none))
      ∧ (∀ (cache : List (List Char × CacheBytes)) (outcome2 : EsOutcome)
          (q : List Char) (p sz total : Int) (docs : List Document) (took : Int),
          (kvLookup cache (cacheKey q p sz)).bind unmarshalResult = none →
          Search cache (.ok total docs took) q p sz =
            (.ok ⟨total, docs, took, getSuggestions q⟩, true,
              some (cacheKey q p sz,
                marshalResult ⟨total, docs, took, getSuggestions q⟩, searchCacheTTL))
          ∧ Search ((cacheKey q p sz,
                marshalResult ⟨total, docs, took, getSuggestions q⟩) :: cache)
              outcome2 q p sz =
            (.ok ⟨total, docs, took, getSuggestions q⟩, false, none)) := by
  constructor
  · intro cache outcome q p sz b r hb hr
    simp [Search, hb, hr]
  · intro cache outcome2 q p sz total docs took hmiss
    constructor
    · simp [Search, hmiss, searchFetch]
    · simp [Search, kvLookup, marshalResult, unmarshalResult]

/-- Witness for the C2 theorem at a concrete cached request and a concrete
miss-then-hit round trip. -/
theorem C2_cache_hit_skips_backend_witness :
    Search [(helloKey, CacheBytes.wellFormed helloResult)]
      (.transportError "down".toList) "hello".toList 1 10 =
      (.ok helloResult, false, none)
      ∧ Search [] (.ok 1 [plainDoc] 5) "hello".toList 1 10 =
        (.ok helloResult, true, some (helloKey, marshalResult helloResult,
          searchCacheTTL))
      ∧ Search [(helloKey, marshalResult helloResult)]
          (.transportError "down".toList) "hello".toList 1 10 =
        (.ok helloResult, false, none) :=
  ⟨C2_cache_hit_skips_backend.1 [(helloKey, CacheBytes.wellFormed helloResult)]
      (.transportError "down".toList) "hello".toList 1 10
      (CacheBytes.wellFormed helloResult) helloResult (by decide) rfl,
   (C2_cache_hit_skips_backend.2 [] (.transportError "down".toList)
      "hello".toList 1 10 1 [plainDoc] 5 rfl).1,
   (C2_cache_hit_skips_backend.2 [] (.transportError "down".toList)
      "hello".toList 1 10 1 [plainDoc] 5 rfl).2⟩

/-- C5: when the cache misses and the fetch fails, `GetOrSet` returns the
fetch error unchanged and schedules no cache write; likewise the inline
cache-aside path of `Search` propagates a backend failure (transport error
as is, error status wrapped in the fixed message) and schedules no cache
write. -/
theorem C5_fetch_error_propagates_no_write :
    (∀ (α : Type) (cache : List (List Char × List Char)) (key : List Char)
        (ttl : Nat) (e : List Char) (marshal : α → List Char),
        kvLookup cache key = none →
        GetOrSet cache key ttl (.error e) marshal = (.error e, none))
      ∧ (∀ (cache : List (List Char × CacheBytes)) (q : List Char) (p sz : Int)
          (e : List Char),
          (kvLookup cache (cacheKey q p sz)).bind unmarshalResult = none →
          Search cache (.transportError e) q p sz = (.error e, true, none)
          ∧ Search cache (.httpError e) q p sz =
              (.error ("search request failed: ".toList ++ e), true, none)) := by
  constructor
  · intro α cache key ttl e marshal hmiss
    simp [GetOrSet, hmiss]
  · intro cache q p sz e hmiss
    constructor
    · simp [Search, hmiss, searchFetch]
    · simp [Search, hmiss, searchFetch]

/-- Witness for the C5 theorem on an empty cache with failing fetches. -/
theorem C5_fetch_error_propagates_no_write_witness :
    GetOrSet [] "k".toList 60 (.error "boom".toList) (fun n : Nat => toString n |>.toList)
      = (.error "boom".toList, none)
      ∧ Search [] (.transportError "down".toList) "q".toList 1 10
        = (.error "down".toList, true, none) :=
  ⟨C5_fetch_error_propagates_no_write.1 Nat [] "k".toList 60 "boom".toList
      (fun n : Nat => toString n |>.toList) rfl,
   (C5_fetch_error_propagates_no_write.2 [] "q".toList 1 10 "down".toList rfl).1⟩

/-- C9: for a restricted-region caller whose result loses at least one
document to moderation, the shaped response carries the filtered flag, the
fixed notice message, and a hit list shorter than the backend hit list by
exactly the removed count. -/
theorem C9_filtered_response (bd : List (List Char)) (result : SearchResult)
    (h : 0 < (Filter bd result.hits).2) :
    (handlerShape bd true result).filtered = true
      ∧ (handlerShape bd true result).message = noticeMessage
      ∧ (handlerShape bd true result).result.hits.length
          + (Filter bd result.hits).2 = result.hits.length := by
  refine ⟨by simp [handlerShape, h], by simp [handlerShape, h], ?_⟩
  have hlen := Filter_length_add bd result.hits
  simp [handlerShape, h]
  omega

/-- Witness for the C9 theorem: a restricted caller with one document on a
default-blocked domain and one plain document. -/
theorem C9_filtered_response_witness :
    (handlerShape defaultBlacklist true
        ⟨2, [blockedUrlDoc, plainDoc], 5, []⟩).filtered = true
      ∧ (handlerShape defaultBlacklist true
          ⟨2, [blockedUrlDoc, plainDoc], 5, []⟩).message = noticeMessage
      ∧ (handlerShape defaultBlacklist true
          ⟨2, [blockedUrlDoc, plainDoc], 5, []⟩).result.hits.length
          + (Filter defaultBlacklist [blockedUrlDoc, plainDoc]).2 = 2 :=
  C9_filtered_response defaultBlacklist ⟨2, [blockedUrlDoc, plainDoc], 5, []⟩
    (by decide)

/-- C10: response shaping never touches the total, took or suggestions
fields: whatever the region flag and however many documents moderation
removes, those three fields of the shaped response are exactly the backend
values, so the reported total is never reduced by the removals. -/
theorem C10_shape_frame (bd : List (List Char)) (isCN : Bool)
    (result : SearchResult) :
    (handlerShape bd isCN result).result.total = result.total
      ∧ (handlerShape bd isCN result).result.took = result.took
      ∧ (handlerShape bd isCN result).result.suggestions = result.suggestions := by
  simp only [handlerShape]
  cases isCN
  · simp
  · simp only [if_true]
    by_cases h : 0 < (Filter bd result.hits).2
    · simp [h]
    · simp [h]

end Leave
